import Mathlib

/-!
Shallow embedding of the interactive shot-chart component
(`src/components/InteractiveViz.js`) of the `nba_shotchart` repository.

Conventions of the embedding:
* JavaScript numbers are modelled as `ℚ`; a `NaN`-able numeric slot is
  `Option ℚ` with `none` standing for `NaN` (every JS comparison against
  `NaN` is false, which the `o*` comparison helpers reproduce).
* The mutable closure variables `selPlayers`, `selTeams`, `madeFilter`,
  `distFilter` and `brushedExtent` are gathered into a `FilterState`
  record; the string-valued selects keep their string values.
* The D3 library calls that the component makes (`scaleLinear`,
  `quantile`, `bin().thresholds(n)`, the keyed `data(...)` join, the
  brush callback protocol, `Array.prototype.sort`) are modelled from the
  library's documented semantics, since the library itself is not part
  of the repository.
-/

/-- JS comparison `d <= c` where `d` may be `NaN` (`none`). -/
def oLe : Option ℚ → ℚ → Bool
  | some v, c => decide (v ≤ c)
  | none, _ => false

/-- JS comparison `d >= c` where `d` may be `NaN` (`none`). -/
def oGe : Option ℚ → ℚ → Bool
  | some v, c => decide (c ≤ v)
  | none, _ => false

/-- JS comparison `d > c` where `d` may be `NaN` (`none`). -/
def oGt : Option ℚ → ℚ → Bool
  | some v, c => decide (c < v)
  | none, _ => false

/-- A normalized record, as built by the `rawData.map` at lines 106-120:
`__player`, `__team`, `__made` (1 or 0), `__dist`, `__x`, `__y`,
`__date` (modelled by its formatted `yyyy-mm-dd` form, `none` when the
`m-d-Y` parse fails), `__q`, `__mins`, `__secs`. -/
structure ShotRec where
  player : String
  team : String
  made : Nat
  dist : Option ℚ
  x : Option ℚ
  y : Option ℚ
  date : Option String
  q : Option Int
  mins : Option Int
  secs : Option Int
deriving DecidableEq

/-- The component's mutable filter variables (`selPlayers`, `selTeams`,
`madeFilter`, `distFilter`, `brushedExtent`). -/
structure FilterState where
  selPlayers : List String
  selTeams : List String
  madeFilter : String
  distFilter : String
  brushedExtent : Option (ℚ × ℚ)
deriving DecidableEq

/-- Line 199: `data.filter(d => selPlayers.includes(d.__player) && selTeams.includes(d.__team))`. -/
def stageActorsGroups (fs : FilterState) (l : List ShotRec) : List ShotRec :=
  l.filter (fun d => fs.selPlayers.contains d.player && fs.selTeams.contains d.team)

/-- Lines 200-201: the two conditional `madeFilter` filters. -/
def stageOutcome (fs : FilterState) (l : List ShotRec) : List ShotRec :=
  let l1 := if fs.madeFilter = "Made" then l.filter (fun d => d.made == 1) else l
  if fs.madeFilter = "Missed" then l1.filter (fun d => d.made == 0) else l1

/-- Lines 202-206: the `distFilter` band filters. -/
def stageBand (fs : FilterState) (l : List ShotRec) : List ShotRec :=
  if fs.distFilter = "All" then l
  else
    let l1 := if fs.distFilter = "0–10" then l.filter (fun d => oLe d.dist 10) else l
    let l2 := if fs.distFilter = "10–23" then
        l1.filter (fun d => oGt d.dist 10 && oLe d.dist 23) else l1
    if fs.distFilter = "23+" then l2.filter (fun d => oGt d.dist 23) else l2

/-- Lines 207-210: the brush range filter `d.__dist >= d0 && d.__dist <= d1`. -/
def stageBrush (fs : FilterState) (l : List ShotRec) : List ShotRec :=
  match fs.brushedExtent with
  | some (d0, d1) => l.filter (fun d => oGe d.dist d0 && oLe d.dist d1)
  | none => l

/-- The visible subset computed by `redraw` (lines 197-210): the four
filter stages applied in program order. -/
def visibleSubset (fs : FilterState) (data : List ShotRec) : List ShotRec :=
  stageBrush fs (stageBand fs (stageOutcome fs (stageActorsGroups fs data)))

/-- The selected-actors criterion applied on its own. -/
def byActors (fs : FilterState) (l : List ShotRec) : List ShotRec :=
  l.filter (fun d => fs.selPlayers.contains d.player)

/-- The selected-groups criterion applied on its own. -/
def byGroups (fs : FilterState) (l : List ShotRec) : List ShotRec :=
  l.filter (fun d => fs.selTeams.contains d.team)

/-- Boolean form of the actor criterion. -/
def actorKeep (fs : FilterState) (d : ShotRec) : Bool :=
  fs.selPlayers.contains d.player

/-- Boolean form of the group criterion. -/
def groupKeep (fs : FilterState) (d : ShotRec) : Bool :=
  fs.selTeams.contains d.team

/-- Boolean form of the outcome criterion (both conditional filters). -/
def outKeep (fs : FilterState) (d : ShotRec) : Bool :=
  (if fs.madeFilter = "Made" then d.made == 1 else true)
    && (if fs.madeFilter = "Missed" then d.made == 0 else true)

/-- Boolean form of the distance-band criterion. -/
def bandKeep (fs : FilterState) (d : ShotRec) : Bool :=
  if fs.distFilter = "All" then true
  else
    (if fs.distFilter = "0–10" then oLe d.dist 10 else true)
      && (if fs.distFilter = "10–23" then oGt d.dist 10 && oLe d.dist 23 else true)
      && (if fs.distFilter = "23+" then oGt d.dist 23 else true)

/-- Boolean form of the brush distance-range criterion. -/
def brushKeep (fs : FilterState) (d : ShotRec) : Bool :=
  match fs.brushedExtent with
  | some (d0, d1) => oGe d.dist d0 && oLe d.dist d1
  | none => true

/-- Parameters of a (non-clamping) `d3.scaleLinear`: domain `[d0, d1]`,
range `[r0, r1]`. -/
structure ScaleP where
  d0 : ℚ
  d1 : ℚ
  r0 : ℚ
  r1 : ℚ
deriving DecidableEq

/-- `scale(v)` for a linear scale. -/
def scaleMap (p : ScaleP) (v : ℚ) : ℚ :=
  p.r0 + (v - p.d0) * (p.r1 - p.r0) / (p.d1 - p.d0)

/-- `scale.invert(v)` for a linear scale. -/
def scaleInvert (p : ScaleP) (v : ℚ) : ℚ :=
  p.d0 + (v - p.r0) * (p.d1 - p.d0) / (p.r1 - p.r0)

/-- A linear scale applied to a possibly-`NaN` value. -/
def oScale (p : ScaleP) : Option ℚ → Option ℚ
  | some v => some (scaleMap p v)
  | none => none

/-- A raw CSV cell as the component sees it: a string, a (finite)
number, a boolean, or `undefined` for a missing column. -/
inductive JSValue where
  | str : String → JSValue
  | num : ℚ → JSValue
  | bool : Bool → JSValue
  | undef : JSValue
deriving DecidableEq

/-- Value of a digit list read in base 10. -/
def digitsVal (l : List Char) : ℕ :=
  l.foldl (fun n c => 10 * n + (c.toNat - 48)) 0

/-- JS string trimming (both ends, whitespace). -/
def jsTrim (l : List Char) : List Char :=
  ((l.dropWhile Char.isWhitespace).reverse.dropWhile Char.isWhitespace).reverse

/-- Modelled from the JS `ToNumber` conversion on strings, restricted to
the decimal literals the dataset actually contains (optional sign,
digits, at most one decimal point; no exponent/hex/`Infinity` forms):
the empty (or all-whitespace) string is `0`, anything unparsable is
`NaN` (`none`). -/
def jsStrToNum (s : String) : Option ℚ :=
  let l := jsTrim s.data
  if l.isEmpty then some 0
  else
    let signAndRest : Bool × List Char :=
      match l with
      | '-' :: rest => (true, rest)
      | '+' :: rest => (false, rest)
      | _ => (false, l)
    let core : Option ℚ :=
      match (signAndRest.2).span (fun c => !(c == '.')) with
      | (a, []) =>
        if !a.isEmpty && a.all Char.isDigit then some (digitsVal a : ℚ) else none
      | (a, _ :: b) =>
        if !(a ++ b).isEmpty && !(b.contains '.') && (a ++ b).all Char.isDigit then
          some ((digitsVal a : ℚ) + (digitsVal b : ℚ) / (10 : ℚ) ^ b.length)
        else none
    core.map (fun q => if signAndRest.1 then -q else q)

/-- The JS unary `+` coercion on a raw cell (`NaN` is `none`). -/
def toNum : JSValue → Option ℚ
  | .str s => jsStrToNum s
  | .num q => some q
  | .bool b => some (if b then 1 else 0)
  | .undef => none

/-- Line 111: `d[columns.made] === "TRUE" || d[columns.made] === true ||
+d[columns.made] === 1 ? 1 : 0`. -/
def madeCoerce (v : JSValue) : Nat :=
  if v = .str "TRUE" ∨ v = .bool true ∨ toNum v = some 1 then 1 else 0

/-- Lexicographic comparison of char lists by code point, the order JS
`Array.prototype.sort` uses on strings (UTF-16 code units; identical
on the basic plane). -/
def charListLe : List Char → List Char → Bool
  | [], _ => true
  | _ :: _, [] => false
  | a :: as, b :: bs =>
    if a.toNat < b.toNat then true
    else if a.toNat = b.toNat then charListLe as bs
    else false

/-- `a <= b` for JS default string sorting. -/
def jsStrLe (a b : String) : Bool := charListLe a.data b.data

/-- The order relation behind `jsStrLe`, in `Prop` form. -/
def jsStrLeR (a b : String) : Prop := jsStrLe a b = true

instance : DecidableRel jsStrLeR := fun a b => by
  unfold jsStrLeR; infer_instance

/-- `Array.from(new Set(xs)).sort()` (lines 123-124): the distinct
values in lexicographically sorted order (modelled with an insertion
sort, which agrees with any correct sort on the same total order). -/
def sortedDistinct (xs : List String) : List String :=
  List.insertionSort jsStrLeR xs.dedup

/-- Line 123: `allPlayers`. -/
def allPlayers (data : List ShotRec) : List String :=
  sortedDistinct (data.map (fun d => d.player))

/-- Line 124: `allTeams`. -/
def allTeams (data : List ShotRec) : List String :=
  sortedDistinct (data.map (fun d => d.team))

/-- Line 127: `selPlayers = allPlayers.slice(0, Math.min(5, allPlayers.length))`. -/
def selPlayersInit (data : List ShotRec) : List String :=
  (allPlayers data).take (min 5 (allPlayers data).length)

/-- The filter state at mount time (lines 127-139, 195): first-five
players, all teams, `"All"` outcome and band, no brush. -/
def initFS (data : List ShotRec) : FilterState :=
  { selPlayers := selPlayersInit data
    selTeams := allTeams data
    madeFilter := "All"
    distFilter := "All"
    brushedExtent := none }

/-- Line 242: `data.map(d => d.__dist).filter(Number.isFinite)` (the
`Option` model makes `isFinite` the `isSome` test). -/
def finiteDists (data : List ShotRec) : List ℚ :=
  (data.map (fun d => d.dist)).filterMap id

/-- `...sort(d3.ascending)` applied to the finite distances (line 190). -/
def sortedDists (data : List ShotRec) : List ℚ :=
  List.insertionSort (· ≤ ·) (finiteDists data)

/-- `d3.quantile` on an already-sorted list: `undefined` (`none`) when
empty, the minimum when `p <= 0` or fewer than two values, the maximum
when `p >= 1`, else linear interpolation at `i = (n-1)p`. -/
def quantileSorted (v : List ℚ) (p : ℚ) : Option ℚ :=
  if v.length = 0 then none
  else if p ≤ 0 ∨ v.length < 2 then some (v.headD 0)
  else if 1 ≤ p then some (v.getLastD 0)
  else
    let i : ℚ := ((v.length - 1 : ℕ) : ℚ) * p
    let i0 : ℕ := (⌊i⌋).toNat
    let v0 := v.getD i0 0
    let v1 := v.getD (i0 + 1) 0
    some (v0 + (v1 - v0) * (i - (i0 : ℚ)))

/-- The 99th percentile of the finite distances (line 190). -/
def q99 (data : List ShotRec) : Option ℚ :=
  quantileSorted (sortedDists data) (99 / 100)

/-- Lines 189-191: the histogram domain upper bound
`d3.quantile(..., 0.99) || 35` — the JS `||` falls back to 35 when the
quantile is `undefined` (empty data) or the falsy number 0. -/
def hxUpper (data : List ShotRec) : ℚ :=
  match q99 data with
  | some qv => if qv = 0 then 35 else qv
  | none => 35

/-- The histogram x-scale `hx`: domain `[0, hxUpper]`, range
`[0, HW]` with `HW = 1100 - 40 - 20 = 1040` (lines 185-191). -/
def hxScale (data : List ShotRec) : ScaleP :=
  { d0 := 0, d1 := hxUpper data, r0 := 0, r1 := 1040 }

/-- `Math.floor(Math.log10 q)` for a positive rational (0 for
non-positive input, which the callers never produce). -/
def log10Floor (q : ℚ) : Int :=
  if 1 ≤ q then (Nat.log 10 (⌊q⌋).toNat : Int)
  else if 0 < q then -(Nat.clog 10 (⌈1 / q⌉).toNat : Int)
  else 0

/-- `Math.round`: half rounds toward positive infinity. -/
def jsRound (q : ℚ) : Int := ⌊q + 1 / 2⌋

/-- Modelled from d3-array's `tickSpec(start, stop, count)` for
`start < stop` and `count ≥ 2` (the component always passes 25 or 8):
returns `(i1, i2, inc)`; a negative `inc` encodes the divisor
`-1/inc`. The square-root thresholds `√50, √10, √2` are compared via
squares. -/
def tickSpec (start stop : ℚ) (count : ℕ) : Int × Int × ℚ :=
  let step := (start - stop) / (0 - (count : ℚ))
  let power := log10Floor step
  let error := step / (10 : ℚ) ^ power
  let factor : ℚ :=
    if 50 ≤ error ^ 2 then 10 else if 10 ≤ error ^ 2 then 5
    else if 2 ≤ error ^ 2 then 2 else 1
  if power < 0 then
    let inc := (10 : ℚ) ^ (-power) / factor
    let i1 := jsRound (start * inc)
    let i2 := jsRound (stop * inc)
    let i1a := if (i1 : ℚ) / inc < start then i1 + 1 else i1
    let i2a := if stop < (i2 : ℚ) / inc then i2 - 1 else i2
    (i1a, i2a, 0 - inc)
  else
    let inc := (10 : ℚ) ^ power * factor
    let i1 := jsRound (start / inc)
    let i2 := jsRound (stop / inc)
    let i1a := if (i1 : ℚ) * inc < start then i1 + 1 else i1
    let i2a := if stop < (i2 : ℚ) * inc then i2 - 1 else i2
    (i1a, i2a, inc)

/-- Modelled from d3-array's `ticks(start, stop, count)`. -/
def d3ticks (start stop : ℚ) (count : ℕ) : List ℚ :=
  if count = 0 then []
  else if start = stop then [start]
  else if stop < start then
    let t := tickSpec stop start count
    if t.2.1 < t.1 then []
    else
      ((List.range (t.2.1 - t.1 + 1).toNat).map (fun i =>
        if t.2.2 < 0 then ((t.2.1 - (i : Int) : Int) : ℚ) / (0 - t.2.2)
        else ((t.2.1 - (i : Int) : Int) : ℚ) * t.2.2))
  else
    let t := tickSpec start stop count
    if t.2.1 < t.1 then []
    else
      ((List.range (t.2.1 - t.1 + 1).toNat).map (fun i =>
        if t.2.2 < 0 then ((t.1 + (i : Int) : Int) : ℚ) / (0 - t.2.2)
        else ((t.1 + (i : Int) : Int) : ℚ) * t.2.2))

/-- One histogram bin: edges and occupant count. -/
structure HBin where
  lo : ℚ
  hi : ℚ
  count : ℕ
deriving DecidableEq

/-- `bisectRight(tz, x)` on a sorted threshold list: the number of
thresholds that are `<= x`. -/
def binIndex (tz : List ℚ) (x : ℚ) : ℕ :=
  (tz.filter (fun t => decide (t ≤ x))).length

/-- Modelled from d3-array's `bin().domain([x0, x1]).thresholds(tn)`
applied to `values` with an explicit (non-default) domain: thresholds
are `ticks(x0, x1, tn)` with a threshold coincident with the upper
bound removed and thresholds outside `(x0, x1]` stripped; bin `i`
spans `[eᵢ, eᵢ₊₁)` (last bin closed) and values outside `[x0, x1]`
are discarded. -/
def computeBins (x0 x1 : ℚ) (tn : ℕ) (values : List ℚ) : List HBin :=
  let tz0 := d3ticks x0 x1 tn
  let tz1 := match tz0.getLast? with
    | some t => if x1 ≤ t then tz0.dropLast else tz0
    | none => tz0
  let tz := tz1.filter (fun t => decide (x0 < t) && decide (t ≤ x1))
  let m := tz.length
  (List.range (m + 1)).map (fun i =>
    { lo := if i = 0 then x0 else tz.getD (i - 1) x0
      hi := if i = m then x1 else tz.getD i x1
      count := (values.filter (fun x =>
        decide (x0 ≤ x) && decide (x ≤ x1) && (binIndex tz x == i))).length })

/-- A rendered scatter circle: the attributes that `enter` sets from
its datum (lines 215-222) and that are never touched again. -/
structure Elem where
  cx : Option ℚ
  cy : Option ℚ
  fill : String
deriving DecidableEq

/-- The circle `enter` builds for a record (lines 215-222): position
through the scatter scales, fill keyed by `__made`. -/
def mkElem (xs ys : ScaleP) (r : ShotRec) : Elem :=
  { cx := oScale xs r.x
    cy := oScale ys r.y
    fill := if r.made = 1 then "#4a90e2" else "#e74c3c" }

/-- The keyed join of line 213, `dots.selectAll("circle").data(filtered,
(d,i) => i)`, followed by the `join(enter, update, exit)` of lines
214-239: the key function receives the index within its own group, so
datum `i` is matched with the existing element at position `i`;
matched elements are left untouched (the `update` branch is the
identity), surplus data enter as new elements, surplus elements exit. -/
def joinDots (xs ys : ScaleP) (old : List Elem) (filtered : List ShotRec) : List Elem :=
  old.take filtered.length ++ (filtered.drop old.length).map (mkElem xs ys)

/-- Static configuration fixed before the first `redraw`: the record
set and the two scatter scales. -/
structure VizConfig where
  data : List ShotRec
  xs : ScaleP
  ys : ScaleP
deriving DecidableEq

/-- Everything `redraw` leaves behind that later passes can observe:
the circle elements, the histogram bins, and `brushedExtent`. -/
structure RedrawOut where
  elems : List Elem
  bins : List HBin
  brushed : Option (ℚ × ℚ)
deriving DecidableEq

/-- Lines 269-280: the `brush end` handler — a null selection clears
`brushedExtent`, any other screen interval is inverted through `hx`. -/
def onBrushEvent (hx : ScaleP) (selection : Option (ℚ × ℚ)) : Option (ℚ × ℚ) :=
  match selection with
  | none => none
  | some (a, b) => some (scaleInvert hx a, scaleInvert hx b)

/-- The body of a single `redraw()` execution (lines 197-286): the
filtered subset, the circle reconciliation, the histogram bins
recomputed from the full data over the fixed `hx` domain, and — in
the `brushed` field — the extent that the handler of lines 271-280
writes when the `brush.move` of line 284 synchronously re-dispatches
it with the selection `brushedExtent.map(hx)`. This is only the
single-pass body: that same handler invocation also calls `redraw()`
again (lines 274 and 279, with no `sourceEvent` guard), so whenever
`brushedExtent` is non-null the program's `redraw` re-enters itself;
the resulting recursion, which never reaches a base case, is modelled
separately by `brushFeedback` and `brushFeedbackIter` below. -/
def redrawStep (cfg : VizConfig) (fs : FilterState) (prev : List Elem) : RedrawOut :=
  let filtered := visibleSubset fs cfg.data
  let hx := hxScale cfg.data
  { elems := joinDots cfg.xs cfg.ys prev filtered
    bins := computeBins 0 (hxUpper cfg.data) 25 (finiteDists cfg.data)
    brushed :=
      match fs.brushedExtent with
      | none => none
      | some (a, b) => onBrushEvent hx (some (scaleMap hx a, scaleMap hx b)) }

/-- Lines 283-284 as one re-entry of the cascade sees them: a null
`brushedExtent` fails the `if (brushedExtent)` guard, `brush.move` is
not called and the cascade stops; a non-null extent is mapped through
`hx`, `brush.move` synchronously dispatches the `brush`/`end` events
with that selection, and the handler (lines 271-280) writes the
inverted pair back before calling `redraw()` again. -/
def brushFeedback (data : List ShotRec) (b : Option (ℚ × ℚ)) : Option (ℚ × ℚ) :=
  match b with
  | none => none
  | some (a, c) =>
    onBrushEvent (hxScale data)
      (some (scaleMap (hxScale data) a, scaleMap (hxScale data) c))

/-- The brush extent after `n` nested re-entries of `redraw()` through
the line-284 feedback. -/
def brushFeedbackIter (data : List ShotRec) : ℕ → Option (ℚ × ℚ) → Option (ℚ × ℚ)
  | 0, b => b
  | n + 1, b => brushFeedbackIter data n (brushFeedback data b)

/-- `String.prototype.padStart(2, "0")`. -/
def padStart2 (s : String) : String :=
  if 2 ≤ s.length then s else String.mk (List.replicate (2 - s.length) '0') ++ s

/-- The minutes slot of the tooltip clock: `${d.__mins ?? ""}`. -/
def minsSlot : Option Int → String
  | some m => toString m
  | none => ""

/-- The raw seconds text before padding: `String(d.__secs ?? "")`. -/
def secsSlot : Option Int → String
  | some s => toString s
  | none => ""

/-- The tooltip clock (line 230): `${mins ?? ""}:${String(secs ?? "").padStart(2, "0")}`. -/
def clockStr (m s : Option Int) : String :=
  minsSlot m ++ ":" ++ padStart2 (secsSlot s)

/-- `Number.prototype.toFixed(1)`: the decimal with one digit after the
point, ties resolved toward the larger scaled integer. -/
def toFixed1 (v : ℚ) : String :=
  let n := jsRound (v * 10)
  (if n < 0 then "-" else "") ++ toString (n.natAbs / 10) ++ "." ++ toString (n.natAbs % 10)

/-- The distance cell (line 228): `Number.isFinite(d.__dist) ?
d.__dist.toFixed(1) : "NA"`. -/
def distanceCell : Option ℚ → String
  | some v => toFixed1 v
  | none => "NA"

/-- The date row (line 229): empty string when the timestamp is absent. -/
def dateRow : Option String → String
  | some s => "Date: " ++ s
  | none => ""

/-- The period/clock row (line 230): empty string when the period is
absent. -/
def periodRow (q m s : Option Int) : String :=
  match q with
  | some qq => "Q" ++ toString qq ++ "  " ++ clockStr m s
  | none => ""

/-- Lines 225-231: the tooltip rows, with `.filter(Boolean)` dropping
the empty strings. -/
def tooltipRows (r : ShotRec) : List String :=
  ([ "<b>" ++ r.player ++ "</b> (" ++ r.team ++ ")"
   , "Result: " ++ (if r.made = 1 then "Made ✓" else "Missed ✗")
   , "Distance: " ++ distanceCell r.dist ++ " ft"
   , dateRow r.date
   , periodRow r.q r.mins r.secs
   ]).filter (fun s => !(s == ""))

/-- Shorthand for a record with the fields the theorems exercise. -/
def mkRec (p t : String) (m : Nat) (dq xq yq : Option ℚ) : ShotRec :=
  { player := p, team := t, made := m, dist := dq, x := xq, y := yq
    date := none, q := none, mins := none, secs := none }

/-- Fixture: a missed shot by actor `"A"` at the origin. -/
def recA : ShotRec := mkRec "A" "T" 0 (some 5) (some 0) (some 0)

/-- Fixture: a made shot by actor `"B"` away from the origin. -/
def recB : ShotRec := mkRec "B" "T" 1 (some 5) (some 100) (some 100)

/-- Fixture: the two-record chart instance for the reconciliation
analysis (scatter scales as initialization would derive them from the
extents `[0, 100]` padded by 10). -/
def cfgAB : VizConfig :=
  { data := [recA, recB]
    xs := { d0 := -10, d1 := 110, r0 := 0, r1 := 1080 }
    ys := { d0 := -50, d1 := 110, r0 := 540, r1 := 0 } }

/-- Fixture: both actors selected, no other filter. -/
def fsAB : FilterState :=
  { selPlayers := ["A", "B"], selTeams := ["T"]
    madeFilter := "All", distFilter := "All", brushedExtent := none }

/-- Fixture: only actor `"B"` selected. -/
def fsOnlyB : FilterState := { fsAB with selPlayers := ["B"] }

/-- Fixture: a dataset whose finite distances are `10` and `20`. -/
def dataTen : List ShotRec :=
  [mkRec "A" "T" 1 (some 10) none none, mkRec "A" "T" 0 (some 20) none none]

/-- Fixture: a dataset whose finite distances are all zero. -/
def dataZero : List ShotRec :=
  [mkRec "A" "T" 1 (some 0) none none, mkRec "A" "T" 0 (some 0) none none]

/-- Fixture: six records by six distinct actors `"A"`…`"F"` (one team). -/
def dataSix : List ShotRec :=
  [ mkRec "F" "T" 1 (some 1) (some 0) (some 0)
  , mkRec "B" "T" 0 (some 2) (some 0) (some 0)
  , mkRec "E" "T" 1 (some 3) (some 0) (some 0)
  , mkRec "A" "T" 0 (some 4) (some 0) (some 0)
  , mkRec "D" "T" 1 (some 5) (some 0) (some 0)
  , mkRec "C" "T" 0 (some 6) (some 0) (some 0) ]

/-- Fixture: a record whose period and seconds are set but whose
minutes and date are absent. -/
def recClock : ShotRec :=
  { mkRec "A" "T" 1 (some (123 / 10)) none none with
      q := some 4, mins := none, secs := some 7 }

theorem mem_stageActorsGroups (fs : FilterState) (l : List ShotRec) (r : ShotRec) :
    r ∈ stageActorsGroups fs l ↔
      r ∈ l ∧ actorKeep fs r = true ∧ groupKeep fs r = true := by
  simp [stageActorsGroups, List.mem_filter, actorKeep, groupKeep, and_assoc]

theorem mem_stageOutcome (fs : FilterState) (l : List ShotRec) (r : ShotRec) :
    r ∈ stageOutcome fs l ↔ r ∈ l ∧ outKeep fs r = true := by
  by_cases h1 : fs.madeFilter = "Made"
  · have h2 : ¬ fs.madeFilter = "Missed" := by rw [h1]; decide
    simp [stageOutcome, outKeep, h1, h2, List.mem_filter]
  · by_cases h2 : fs.madeFilter = "Missed"
    · simp [stageOutcome, outKeep, h1, h2, List.mem_filter]
    · simp [stageOutcome, outKeep, h1, h2]

theorem mem_stageBand (fs : FilterState) (l : List ShotRec) (r : ShotRec) :
    r ∈ stageBand fs l ↔ r ∈ l ∧ bandKeep fs r = true := by
  by_cases hA : fs.distFilter = "All"
  · simp [stageBand, bandKeep, hA]
  · by_cases h1 : fs.distFilter = "0–10"
    · have h2 : ¬ fs.distFilter = "10–23" := by rw [h1]; decide
      have h3 : ¬ fs.distFilter = "23+" := by rw [h1]; decide
      simp [stageBand, bandKeep, hA, h1, h2, h3, List.mem_filter]
    · by_cases h2 : fs.distFilter = "10–23"
      · have h3 : ¬ fs.distFilter = "23+" := by rw [h2]; decide
        simp [stageBand, bandKeep, hA, h1, h2, h3, List.mem_filter]
      · by_cases h3 : fs.distFilter = "23+"
        · simp [stageBand, bandKeep, hA, h1, h2, h3, List.mem_filter]
        · simp [stageBand, bandKeep, hA, h1, h2, h3]

theorem mem_stageBrush (fs : FilterState) (l : List ShotRec) (r : ShotRec) :
    r ∈ stageBrush fs l ↔ r ∈ l ∧ brushKeep fs r = true := by
  cases h : fs.brushedExtent with
  | none => simp [stageBrush, brushKeep, h]
  | some p =>
    obtain ⟨d0, d1⟩ := p
    simp [stageBrush, brushKeep, h, List.mem_filter]

theorem mem_visibleSubset (fs : FilterState) (data : List ShotRec) (r : ShotRec) :
    r ∈ visibleSubset fs data ↔
      r ∈ data ∧ actorKeep fs r = true ∧ groupKeep fs r = true ∧
        outKeep fs r = true ∧ bandKeep fs r = true ∧ brushKeep fs r = true := by
  unfold visibleSubset
  rw [mem_stageBrush, mem_stageBand, mem_stageOutcome, mem_stageActorsGroups]
  tauto

/-- C1: the visible subset `redraw` computes is the conjunction (set
intersection) of the individually-filtered subsets of each criterion;
an empty selected-actors or selected-groups set gives an empty visible
subset; and the distance-band and brush distance-range predicates both
apply (conjunctively) to every visible record. -/
theorem redraw_visible_conjunctive (fs : FilterState) (data : List ShotRec) :
    (∀ r, r ∈ visibleSubset fs data ↔
      (r ∈ byActors fs data ∧ r ∈ byGroups fs data ∧ r ∈ stageOutcome fs data ∧
        r ∈ stageBand fs data ∧ r ∈ stageBrush fs data))
    ∧ (fs.selPlayers = [] → visibleSubset fs data = [])
    ∧ (fs.selTeams = [] → visibleSubset fs data = [])
    ∧ (∀ r, r ∈ visibleSubset fs data → bandKeep fs r = true ∧ brushKeep fs r = true) := by
  refine ⟨?_, ?_, ?_, ?_⟩
  · intro r
    rw [mem_visibleSubset, mem_stageOutcome, mem_stageBand, mem_stageBrush]
    simp only [byActors, byGroups, List.mem_filter, actorKeep, groupKeep]
    tauto
  · intro h
    rw [List.eq_nil_iff_forall_not_mem]
    intro r hr
    rw [mem_visibleSubset] at hr
    have ha := hr.2.1
    rw [actorKeep, h] at ha
    simp at ha
  · intro h
    rw [List.eq_nil_iff_forall_not_mem]
    intro r hr
    rw [mem_visibleSubset] at hr
    have ha := hr.2.2.1
    rw [groupKeep, h] at ha
    simp at ha
  · intro r hr
    rw [mem_visibleSubset] at hr
    exact ⟨hr.2.2.2.2.1, hr.2.2.2.2.2⟩

/-- C1 witness: with no selected actors, the visible subset of the
one-record fixture is empty. -/
theorem redraw_visible_conjunctive_witness :
    visibleSubset
      { selPlayers := [], selTeams := ["T"], madeFilter := "All",
        distFilter := "All", brushedExtent := none } [recA] = [] :=
  (redraw_visible_conjunctive _ [recA]).2.1 rfl

/-- C2: the histogram bins `redraw` produces are a function of the full
record set alone — identical across any two filter/brush/render
states — and are computed from the finite distances of the full data
over the fixed `[0, hxUpper]` domain. -/
theorem histogram_bins_filter_invariant (cfg : VizConfig)
    (fs1 fs2 : FilterState) (prev1 prev2 : List Elem) :
    (redrawStep cfg fs1 prev1).bins = (redrawStep cfg fs2 prev2).bins
    ∧ (redrawStep cfg fs1 prev1).bins
        = computeBins 0 (hxUpper cfg.data) 25 (finiteDists cfg.data) :=
  ⟨rfl, rfl⟩

theorem oRange_iff (d : Option ℚ) (d0 d1 : ℚ) :
    (oGe d d0 && oLe d d1) = true ↔ ∃ q, d = some q ∧ d0 ≤ q ∧ q ≤ d1 := by
  cases d <;> simp [oGe, oLe]

/-- C3: with the histogram domain `[0, 35]` over a 1000-pixel range, a
drag from pixel 0 to pixel 500 inverts to the data range
`[0, 17.5]`, and the brush filter keeps exactly the records whose
distance `q` satisfies `0 ≤ q ≤ 17.5` (both bounds inclusive). -/
theorem brush_inversion_range :
    scaleInvert { d0 := 0, d1 := 35, r0 := 0, r1 := 1000 } 0 = 0
    ∧ scaleInvert { d0 := 0, d1 := 35, r0 := 0, r1 := 1000 } 500 = 35 / 2
    ∧ ∀ (data : List ShotRec) (r : ShotRec),
        r ∈ stageBrush
            { selPlayers := [], selTeams := [], madeFilter := "All", distFilter := "All",
              brushedExtent := some
                (scaleInvert { d0 := 0, d1 := 35, r0 := 0, r1 := 1000 } 0,
                 scaleInvert { d0 := 0, d1 := 35, r0 := 0, r1 := 1000 } 500) } data
          ↔ r ∈ data ∧ ∃ q, r.dist = some q ∧ 0 ≤ q ∧ q ≤ 35 / 2 := by
  have h0 : scaleInvert { d0 := 0, d1 := 35, r0 := 0, r1 := 1000 } 0 = 0 := by
    norm_num [scaleInvert]
  have h5 : scaleInvert { d0 := 0, d1 := 35, r0 := 0, r1 := 1000 } 500 = 35 / 2 := by
    norm_num [scaleInvert]
  refine ⟨h0, h5, ?_⟩
  intro data r
  rw [mem_stageBrush]
  simp only [brushKeep, oRange_iff, h0, h5]

theorem scale_roundtrip (p : ScaleP) (h1 : p.d1 - p.d0 ≠ 0) (h2 : p.r1 - p.r0 ≠ 0)
    (v : ℚ) : scaleInvert p (scaleMap p v) = v := by
  unfold scaleMap scaleInvert
  field_simp
  ring

theorem hxUpper_ne_zero (data : List ShotRec) : hxUpper data ≠ 0 := by
  unfold hxUpper
  cases h : q99 data with
  | none => norm_num
  | some qv =>
    by_cases hz : qv = 0
    · simp [hz]
    · simp [hz]

theorem brushFeedback_some (data : List ShotRec) (b : ℚ × ℚ) :
    brushFeedback data (some b) = some b := by
  obtain ⟨a, c⟩ := b
  have hd : (hxScale data).d1 - (hxScale data).d0 ≠ 0 := by
    simpa [hxScale] using hxUpper_ne_zero data
  have hr : (hxScale data).r1 - (hxScale data).r0 ≠ 0 := by
    norm_num [hxScale]
  simp [brushFeedback, onBrushEvent, scale_roundtrip _ hd hr]

/-- C6: `redraw` is not idempotent on brush-active states because it
does not terminate there: every pass with a non-null `brushedExtent`
ends in the line-284 `brush.move`, whose synchronously dispatched
events make the handler write the same non-null extent back and call
`redraw()` once more — after any number of nested re-entries the
extent is unchanged and still non-null, so the `if (brushedExtent)`
re-entry guard holds at every depth and the recursion has no base
case; only a null extent (no brush) stops the cascade after one
pass. -/
theorem redraw_brush_reentry (cfg : VizConfig) (fs : FilterState) (prev : List Elem)
    (e : ℚ × ℚ) (n : ℕ) :
    (fs.brushedExtent = some e → (redrawStep cfg fs prev).brushed = some e)
    ∧ brushFeedbackIter cfg.data n (some e) = some e
    ∧ brushFeedbackIter cfg.data n (some e) ≠ none
    ∧ brushFeedback cfg.data none = none := by
  have hiter : ∀ (m : ℕ) (b : ℚ × ℚ),
      brushFeedbackIter cfg.data m (some b) = some b := by
    intro m
    induction m with
    | zero => intro b; rfl
    | succ k ih =>
      intro b
      rw [brushFeedbackIter, brushFeedback_some]
      exact ih b
  refine ⟨?_, hiter n e, ?_, rfl⟩
  · intro h
    have heq : (redrawStep cfg fs prev).brushed
        = brushFeedback cfg.data fs.brushedExtent := by
      cases hb : fs.brushedExtent with
      | none => simp [redrawStep, brushFeedback, hb]
      | some p =>
        obtain ⟨a, c⟩ := p
        simp [redrawStep, brushFeedback, hb]
    rw [heq, h, brushFeedback_some]
  · rw [hiter n e]
    simp

/-- C6 witness: on the empty-data instance with the brush at
`(0, 17.5)`, one pass writes the same non-null extent back, and three
nested re-entries later the extent is still `(0, 17.5)` — the guard
never clears. -/
theorem redraw_brush_reentry_witness :
    (redrawStep
        { data := [], xs := { d0 := 0, d1 := 1, r0 := 0, r1 := 1 },
          ys := { d0 := 0, d1 := 1, r0 := 0, r1 := 1 } }
        { fsAB with brushedExtent := some (0, 35 / 2) } []).brushed
      = some (0, 35 / 2)
    ∧ brushFeedbackIter [] 3 (some (0, 35 / 2)) = some (0, 35 / 2) :=
  ⟨(redraw_brush_reentry
      { data := [], xs := { d0 := 0, d1 := 1, r0 := 0, r1 := 1 },
        ys := { d0 := 0, d1 := 1, r0 := 0, r1 := 1 } }
      { fsAB with brushedExtent := some (0, 35 / 2) } [] (0, 35 / 2) 3).1 rfl,
   (redraw_brush_reentry
      { data := [], xs := { d0 := 0, d1 := 1, r0 := 0, r1 := 1 },
        ys := { d0 := 0, d1 := 1, r0 := 0, r1 := 1 } }
      { fsAB with brushedExtent := some (0, 35 / 2) } [] (0, 35 / 2) 3).2.1⟩

/-- C7: normalization yields `made = 1` exactly for the literal string
`"TRUE"`, the boolean `true`, or a value whose numeric coercion is 1
(as string or number); everything else — including `"FALSE"`, `0`,
the empty string and `undefined` — yields `made = 0`. -/
theorem made_coercion (v : JSValue) :
    (madeCoerce v = 1 ↔ (v = .str "TRUE" ∨ v = .bool true ∨ toNum v = some 1))
    ∧ (madeCoerce v = 1 ∨ madeCoerce v = 0)
    ∧ madeCoerce (.str "FALSE") = 0
    ∧ madeCoerce (.num 0) = 0
    ∧ madeCoerce (.str "") = 0
    ∧ madeCoerce .undef = 0 := by
  have hF : madeCoerce (.str "FALSE") = 0 := by
    have : toNum (.str "FALSE") = none := by
      simp [toNum, jsStrToNum, jsTrim]
    simp [madeCoerce, this]
  have hE : madeCoerce (.str "") = 0 := by
    have : toNum (.str "") = some 0 := by
      simp [toNum, jsStrToNum, jsTrim]
    simp [madeCoerce, this]
  have hN : madeCoerce (.num 0) = 0 := by
    simp [madeCoerce, toNum]
  have hU : madeCoerce .undef = 0 := by
    simp [madeCoerce, toNum]
  refine ⟨?_, ?_, hF, hN, hE, hU⟩
  · by_cases h : v = .str "TRUE" ∨ v = .bool true ∨ toNum v = some 1 <;>
      simp [madeCoerce, h]
  · by_cases h : v = .str "TRUE" ∨ v = .bool true ∨ toNum v = some 1 <;>
      simp [madeCoerce, h]

/-- C4 counterexample: on the empty-data instance (histogram domain
`[0, 35]`, range width 1040) the handler maps the zero-width selection
`(520, 520)` to the zero-width distance range `(17.5, 17.5)` instead
of removing the criterion. -/
theorem brush_zero_width_kept :
    onBrushEvent (hxScale []) (some (520, 520)) = some (35 / 2, 35 / 2)
    ∧ onBrushEvent (hxScale []) (some (520, 520)) ≠ none := by
  have hu : hxUpper ([] : List ShotRec) = 35 := by
    simp [hxUpper, q99, sortedDists, finiteDists, quantileSorted]
  have h : onBrushEvent (hxScale []) (some (520, 520)) = some (35 / 2, 35 / 2) := by
    simp only [onBrushEvent, hxScale, hu, scaleInvert]
    norm_num
  exact ⟨h, by rw [h]; simp⟩

/-- C4 (amended): the handler removes the distance-range criterion
exactly when the selection is null — the form the library delivers for
an explicit clear, and for a zero-width drag only at gesture end — and
a non-null zero-width selection is stored as a zero-width range. -/
theorem brush_clear_iff_null (hx : ScaleP) (sel : Option (ℚ × ℚ)) :
    (onBrushEvent hx sel = none ↔ sel = none)
    ∧ ∀ a, onBrushEvent hx (some (a, a))
        = some (scaleInvert hx a, scaleInvert hx a) := by
  constructor
  · cases sel with
    | none => simp [onBrushEvent]
    | some p =>
      obtain ⟨a, b⟩ := p
      simp [onBrushEvent]
  · intro a
    rfl

/-- C5 at the failing input: with both records drawn and actor `"A"`
then deselected, record `recB` stays in the visible subset, but the
join — keyed by `(d, i) => i`, the index within the filtered array —
reuses the element that carries `recA`'s position and fill for it and
removes `recB`'s own element. -/
theorem reconciliation_index_key_bug :
    visibleSubset fsOnlyB cfgAB.data = [recB]
    ∧ (redrawStep cfgAB fsAB []).elems
        = [mkElem cfgAB.xs cfgAB.ys recA, mkElem cfgAB.xs cfgAB.ys recB]
    ∧ (redrawStep cfgAB fsOnlyB (redrawStep cfgAB fsAB []).elems).elems
        = [mkElem cfgAB.xs cfgAB.ys recA]
    ∧ mkElem cfgAB.xs cfgAB.ys recA ≠ mkElem cfgAB.xs cfgAB.ys recB := by
  have hv1 : visibleSubset fsAB cfgAB.data = [recA, recB] := by
    simp [visibleSubset, stageActorsGroups, stageOutcome, stageBand, stageBrush,
      fsAB, cfgAB, recA, recB, mkRec, List.filter]
  have hv2 : visibleSubset fsOnlyB cfgAB.data = [recB] := by
    simp [visibleSubset, stageActorsGroups, stageOutcome, stageBand, stageBrush,
      fsOnlyB, fsAB, cfgAB, recA, recB, mkRec, List.filter]
  refine ⟨hv2, ?_, ?_, ?_⟩
  · show joinDots cfgAB.xs cfgAB.ys [] (visibleSubset fsAB cfgAB.data) = _
    rw [hv1]
    simp [joinDots]
  · show joinDots cfgAB.xs cfgAB.ys
        (joinDots cfgAB.xs cfgAB.ys [] (visibleSubset fsAB cfgAB.data))
        (visibleSubset fsOnlyB cfgAB.data) = _
    rw [hv1, hv2]
    simp [joinDots]
  · intro h
    have hf : (mkElem cfgAB.xs cfgAB.ys recA).fill
        = (mkElem cfgAB.xs cfgAB.ys recB).fill := by rw [h]
    rw [mkElem, mkElem] at hf
    simp [recA, recB, mkRec] at hf

/-- C8 counterexample: on `dataZero` every finite distance is 0, so the
99th percentile is 0 — but the `|| 35` fallback sets the histogram
domain upper bound to 35, not to that percentile. -/
theorem hx_upper_not_percentile :
    q99 dataZero = some 0 ∧ hxUpper dataZero = 35 ∧ (35 : ℚ) ≠ 0 := by
  have h : q99 dataZero = some 0 := by
    simp [q99, sortedDists, finiteDists, dataZero, mkRec, List.insertionSort,
      List.orderedInsert, quantileSorted]
    norm_num
  refine ⟨h, ?_, by norm_num⟩
  simp [hxUpper, h]

/-- C8 (amended): the histogram domain upper bound is fixed at
initialization from the full normalized dataset — it equals the 99th
percentile of the finite distances whenever that percentile exists
and is nonzero, and falls back to 35 when the percentile is undefined
(no finite distances) or zero — and every `redraw` pass, whatever the
filter, brush, or prior render state, rebuilds the bins from that same
fixed `[0, hxUpper]` domain and the full data. -/
theorem hx_domain_fixed_once (cfg : VizConfig) (fs : FilterState) (prev : List Elem) :
    (∀ qv, q99 cfg.data = some qv → qv ≠ 0 → hxUpper cfg.data = qv)
    ∧ (q99 cfg.data = none → hxUpper cfg.data = 35)
    ∧ (q99 cfg.data = some 0 → hxUpper cfg.data = 35)
    ∧ (redrawStep cfg fs prev).bins
        = computeBins 0 (hxUpper cfg.data) 25 (finiteDists cfg.data) := by
  refine ⟨?_, ?_, ?_, rfl⟩
  · intro qv h hz
    simp [hxUpper, h, hz]
  · intro h
    simp [hxUpper, h]
  · intro h
    simp [hxUpper, h]

/-- C8 witness: on `dataTen` (finite distances 10 and 20) the 99th
percentile is 19.9 and the domain upper bound equals it. -/
theorem hx_domain_fixed_once_witness :
    q99 dataTen = some (199 / 10) ∧ hxUpper dataTen = 199 / 10 := by
  have hs : sortedDists dataTen = [10, 20] := by
    simp only [sortedDists, finiteDists, dataTen, mkRec, List.map, List.filterMap]
    norm_num [List.insertionSort, List.orderedInsert]
  have h : q99 dataTen = some (199 / 10) := by
    rw [q99, hs, quantileSorted]
    norm_num [List.getD]
  exact ⟨h,
    (hx_domain_fixed_once
        { data := dataTen,
          xs := { d0 := 0, d1 := 1, r0 := 0, r1 := 1 },
          ys := { d0 := 0, d1 := 1, r0 := 0, r1 := 1 } }
        fsAB []).1 (199 / 10) h (by norm_num)⟩

/-- C9 counterexample: with minutes 2 and absent seconds, the clock
renders `"2:00"` — the absent seconds value is the empty string only
before the two-digit zero padding — not the `"2:"` that an
empty-string rendering would produce. -/
theorem clock_absent_seconds_pads :
    clockStr (some 2) none = "2:00" ∧ clockStr (some 2) none ≠ "2:" := by
  constructor
  · decide
  · decide

theorem length_append_pos (a b : String) (h : 0 < a.length) : 0 < (a ++ b).length := by
  rw [String.length_append]
  omega

theorem ne_empty_of_length_pos (a : String) (h : 0 < a.length) : a ≠ "" := by
  intro he
  rw [he] at h
  exact absurd h (by decide)

theorem tooltipRows_eq (r : ShotRec) :
    tooltipRows r =
      [ "<b>" ++ r.player ++ "</b> (" ++ r.team ++ ")"
      , "Result: " ++ (if r.made = 1 then "Made ✓" else "Missed ✗")
      , "Distance: " ++ distanceCell r.dist ++ " ft" ]
      ++ (match r.date with | some s => ["Date: " ++ s] | none => [])
      ++ (match r.q with
          | some qq => ["Q" ++ toString qq ++ "  " ++ clockStr r.mins r.secs]
          | none => []) := by
  have h1 : (("<b>" ++ r.player ++ "</b> (" ++ r.team ++ ")") == "") = false :=
    beq_eq_false_iff_ne.mpr (ne_empty_of_length_pos _
      (length_append_pos _ _ (length_append_pos _ _ (length_append_pos _ _
        (length_append_pos _ _ (by decide))))))
  have h2 : (("Result: " ++ (if r.made = 1 then "Made ✓" else "Missed ✗")) == "")
      = false :=
    beq_eq_false_iff_ne.mpr (ne_empty_of_length_pos _ (length_append_pos _ _ (by decide)))
  have h3 : (("Distance: " ++ distanceCell r.dist ++ " ft") == "") = false :=
    beq_eq_false_iff_ne.mpr (ne_empty_of_length_pos _
      (length_append_pos _ _ (length_append_pos _ _ (by decide))))
  cases hd : r.date with
  | none =>
    cases hq : r.q with
    | none =>
      simp [tooltipRows, List.filter, h1, h2, h3, dateRow, periodRow, hd, hq]
    | some qq =>
      have h5 : (("Q" ++ toString qq ++ "  " ++ clockStr r.mins r.secs) == "")
          = false :=
        beq_eq_false_iff_ne.mpr (ne_empty_of_length_pos _
          (length_append_pos _ _ (length_append_pos _ _ (length_append_pos _ _
            (by decide)))))
      simp [tooltipRows, List.filter, h1, h2, h3, h5, dateRow, periodRow, hd, hq]
  | some s =>
    have h4 : (("Date: " ++ s) == "") = false :=
      beq_eq_false_iff_ne.mpr (ne_empty_of_length_pos _ (length_append_pos _ _ (by decide)))
    cases hq : r.q with
    | none =>
      simp [tooltipRows, List.filter, h1, h2, h3, h4, dateRow, periodRow, hd, hq]
    | some qq =>
      have h5 : (("Q" ++ toString qq ++ "  " ++ clockStr r.mins r.secs) == "")
          = false :=
        beq_eq_false_iff_ne.mpr (ne_empty_of_length_pos _
          (length_append_pos _ _ (length_append_pos _ _ (length_append_pos _ _
            (by decide)))))
      simp [tooltipRows, List.filter, h1, h2, h3, h4, h5, dateRow, periodRow, hd, hq]

/-- C9 (amended): the tooltip shows the distance with exactly one digit
after the decimal point (or `"NA"` when non-finite), shows the date
row exactly when a timestamp is present and the period/clock row
exactly when the period is present; in the clock an absent minutes
value renders as the empty string, a present seconds value is
zero-padded to two digits, and an absent seconds value renders as the
empty string zero-padded to two digits, i.e. `"00"`. -/
theorem tooltip_fields (r : ShotRec) :
    (r.dist = none → distanceCell r.dist = "NA")
    ∧ (∀ v, r.dist = some v → ∃ p : String, ∃ d : ℕ,
        d < 10 ∧ distanceCell r.dist = p ++ "." ++ toString d
          ∧ (toString d).length = 1)
    ∧ (tooltipRows r).length
        = 3 + (if r.date.isSome then 1 else 0) + (if r.q.isSome then 1 else 0)
    ∧ (∀ s, clockStr none s = ":" ++ padStart2 (secsSlot s))
    ∧ (∀ m, clockStr m none = minsSlot m ++ ":" ++ "00")
    ∧ (∀ m (sv : Int), 0 ≤ sv → sv < 10 →
        clockStr m (some sv) = minsSlot m ++ ":" ++ ("0" ++ toString sv))
    ∧ (∀ m (sv : Int), 10 ≤ sv → sv < 100 →
        clockStr m (some sv) = minsSlot m ++ ":" ++ toString sv) := by
  have hlen1 : ∀ k : ℕ, k < 10 → (toString k).length = 1 := by decide
  refine ⟨?_, ?_, ?_, ?_, ?_, ?_, ?_⟩
  · intro h
    rw [h]
    rfl
  · intro v hv
    rw [hv]
    refine ⟨(if jsRound (v * 10) < 0 then "-" else "")
        ++ toString ((jsRound (v * 10)).natAbs / 10),
      (jsRound (v * 10)).natAbs % 10, Nat.mod_lt _ (by norm_num), rfl,
      hlen1 _ (Nat.mod_lt _ (by norm_num))⟩
  · rw [tooltipRows_eq]
    cases hd : r.date <;> cases hq : r.q <;> simp [hd, hq]
  · intro s
    rfl
  · intro m
    have hp : padStart2 (secsSlot none) = "00" := by decide
    rw [clockStr, hp]
  · intro m sv h0 h10
    obtain ⟨n, rfl⟩ := Int.eq_ofNat_of_zero_le h0
    have hn : n < 10 := by exact_mod_cast h10
    have hpad : ∀ k : ℕ, k < 10 →
        padStart2 (toString ((k : ℕ) : ℤ)) = "0" ++ toString ((k : ℕ) : ℤ) := by
      decide
    rw [clockStr, secsSlot, hpad n hn]
  · intro m sv h10 h100
    have h0 : (0 : ℤ) ≤ sv := by omega
    obtain ⟨n, rfl⟩ := Int.eq_ofNat_of_zero_le h0
    have hn1 : 10 ≤ n := by exact_mod_cast h10
    have hn2 : n < 100 := by exact_mod_cast h100
    have hpad : ∀ k : ℕ, k < 100 → 10 ≤ k →
        padStart2 (toString ((k : ℕ) : ℤ)) = toString ((k : ℕ) : ℤ) := by
      decide
    rw [clockStr, secsSlot, hpad n hn2 hn1]

/-- C9 witness: a non-finite distance renders `"NA"`; the fixture with
a date-less record carrying a period gives exactly four tooltip rows;
and single-digit seconds are zero-padded. -/
theorem tooltip_fields_witness :
    distanceCell (mkRec "A" "T" 1 none none none).dist = "NA"
    ∧ (tooltipRows recClock).length = 4
    ∧ clockStr (some 2) (some 7)
        = minsSlot (some 2) ++ ":" ++ ("0" ++ toString (7 : Int)) := by
  refine ⟨(tooltip_fields (mkRec "A" "T" 1 none none none)).1 rfl, ?_, ?_⟩
  · rw [(tooltip_fields recClock).2.2.1]
    rfl
  · exact (tooltip_fields recClock).2.2.2.2.2.1 (some 2) 7 (by norm_num) (by norm_num)

theorem charListLe_total : ∀ a b : List Char,
    charListLe a b = true ∨ charListLe b a = true
  | [], _ => Or.inl rfl
  | _ :: _, [] => Or.inr rfl
  | a :: as, b :: bs => by
    by_cases h1 : a.toNat < b.toNat
    · left
      simp [charListLe, h1]
    · by_cases h2 : b.toNat < a.toNat
      · right
        simp [charListLe, h2]
      · have he : a.toNat = b.toNat := by omega
        rcases charListLe_total as bs with h | h
        · left
          simp [charListLe, h1, he, h]
        · right
          simp [charListLe, h2, he.symm, h]

theorem charListLe_trans : ∀ a b c : List Char,
    charListLe a b = true → charListLe b c = true → charListLe a c = true
  | [], _, _ => by
    intro _ _
    rfl
  | _ :: _, [], _ => by
    intro h _
    simp [charListLe] at h
  | _ :: _, _ :: _, [] => by
    intro _ h
    simp [charListLe] at h
  | a :: as, b :: bs, c :: cs => by
    intro h1 h2
    simp only [charListLe] at h1 h2 ⊢
    by_cases hab : a.toNat < b.toNat
    · by_cases hbc : b.toNat < c.toNat
      · simp [if_pos (show a.toNat < c.toNat by omega)]
      · by_cases hbc2 : b.toNat = c.toNat
        · simp [if_pos (show a.toNat < c.toNat by omega)]
        · simp [hbc, hbc2] at h2
    · by_cases hab2 : a.toNat = b.toNat
      · by_cases hbc : b.toNat < c.toNat
        · simp [if_pos (show a.toNat < c.toNat by omega)]
        · by_cases hbc2 : b.toNat = c.toNat
          · have hac1 : ¬ a.toNat < c.toNat := by omega
            have hac2 : a.toNat = c.toNat := by omega
            simp [hab, hab2] at h1
            simp [hbc, hbc2] at h2
            simp [hac1, hac2]
            exact charListLe_trans as bs cs h1 h2
          · simp [hbc, hbc2] at h2
      · simp [hab, hab2] at h1

/-- C10: at mount time the selected actors are exactly the first five
distinct actor names in (code-point) lexicographically sorted order —
all of them when fewer than five exist — all groups are selected, and
every record whose actor is not among those first five is excluded
from the initial visible subset. -/
theorem initial_actor_selection (data : List ShotRec) :
    List.Sorted jsStrLeR (allPlayers data)
    ∧ selPlayersInit data = (allPlayers data).take 5
    ∧ ((allPlayers data).length ≤ 5 → selPlayersInit data = allPlayers data)
    ∧ (initFS data).selTeams = allTeams data
    ∧ (∀ r, r ∈ data → groupKeep (initFS data) r = true)
    ∧ (∀ r, r ∈ data → r.player ∉ selPlayersInit data →
        r ∉ visibleSubset (initFS data) data) := by
  haveI hT : IsTotal String jsStrLeR := ⟨fun a b => charListLe_total a.data b.data⟩
  haveI hR : IsTrans String jsStrLeR :=
    ⟨fun a b c => charListLe_trans a.data b.data c.data⟩
  have htake : selPlayersInit data = (allPlayers data).take 5 := by
    unfold selPlayersInit
    rcases le_total (allPlayers data).length 5 with h | h
    · rw [min_eq_right h, List.take_length, List.take_of_length_le h]
    · rw [min_eq_left h]
  refine ⟨?_, htake, ?_, rfl, ?_, ?_⟩
  · exact List.sorted_insertionSort jsStrLeR _
  · intro h
    rw [htake, List.take_of_length_le h]
  · intro r hr
    have hmem : r.team ∈ allTeams data := by
      rw [allTeams, sortedDistinct, List.mem_insertionSort, List.mem_dedup]
      exact List.mem_map_of_mem (fun d => d.team) hr
    rw [groupKeep]
    exact List.elem_iff.mpr hmem
  · intro r _ hnp hvis
    rw [mem_visibleSubset] at hvis
    have ha := hvis.2.1
    rw [actorKeep] at ha
    exact hnp (List.elem_iff.mp ha)

/-- C10 witness: in the six-actor fixture the record by actor `"F"` —
the sixth name in sorted order — is not in the initial visible
subset. -/
theorem initial_actor_selection_witness :
    mkRec "F" "T" 1 (some 1) (some 0) (some 0) ∉ visibleSubset (initFS dataSix) dataSix := by
  apply (initial_actor_selection dataSix).2.2.2.2.2
  · show _ ∈ dataSix
    exact List.mem_cons_self _ _
  · show ¬ _ ∈ selPlayersInit dataSix
    decide
